import Mathlib

/-!
# A shallow embedding of `sequence.h`

This file embeds the core of the `sequence` container (src/sequence.h) in Lean 4
and settles a list of claims about it.

Modelling conventions:
* Element slots hold plain values (the element type is a type parameter `α`,
  instantiated with `Int` in concrete statements); a C++ move of such a value
  leaves the source slot holding a moved-from value at the same address, so a
  moved-from live extent is modelled as the same list of values.
* The live-data extent of a storage object is modelled as a `List α`; metadata
  fields that the C++ classes store (`m_size`, `m_front_gap`, `m_back_gap`, the
  `m_data_begin` / `m_data_end` pointers) are carried explicitly exactly when
  the source stores them independently of the extent (the MIDDLE gap fields and
  the dynamic capacity / offsets), and are derived (`data.length`) when the
  source keeps them in lock step with the extent by construction.
* Functions are the release-build semantics: `assert` statements are modelled
  as separate named predicates, and the state-transforming functions perform
  the writes the code performs whether or not the assertion held.
* `throw std::bad_alloc` from a fixed-capacity `reallocate` is the code's
  realization of the spec's `CapacityExceeded` error; fallible operations
  return `Except SeqError _`.
-/

namespace SeqModel

/-- The spec's abstract error kinds; `CapacityExceeded` is realized in the code
as `throw std::bad_alloc()` from the STATIC / FIXED `reallocate`. -/
inductive SeqError where
  | CapacityExceeded
deriving DecidableEq, Repr

/-- Mirrors `sequence_storage_lits`. -/
inductive StorageMode where
  | STATIC | FIXED | VARIABLE | BUFFERED
deriving DecidableEq, Repr

/-- Mirrors `sequence_location_lits`. -/
inductive LocationMode where
  | FRONT | BACK | MIDDLE
deriving DecidableEq, Repr

/-- Mirrors `sequence_growth_lits`. -/
inductive GrowthMode where
  | LINEAR | EXPONENTIAL | VECTOR
deriving DecidableEq, Repr

/-- Mirrors `sequence_traits`: the compile-time trait record.  The C++ `float factor`
is modelled as a rational. -/
structure SequenceTraits where
  storage : StorageMode
  location : LocationMode
  growth : GrowthMode
  capacity : Nat
  increment : Nat
  factor : Rat
deriving DecidableEq, Repr

namespace SequenceTraits

/-- Implements `sequence_traits::grow(cap)`. -/
def grow (t : SequenceTraits) (cap : Nat) : Nat :=
  if cap < t.capacity then t.capacity
  else
    match t.growth with
    | GrowthMode.LINEAR => cap + t.increment
    | GrowthMode.EXPONENTIAL => cap + max (Int.toNat ⌊(cap : Rat) * (t.factor - 1)⌋) t.increment
    | GrowthMode.VECTOR => cap + max (cap / 2) 1

/-- Implements `sequence_traits::front_gap(cap, size)`. -/
def frontGap (t : SequenceTraits) (cap size : Nat) : Nat :=
  match t.location with
  | LocationMode.FRONT => 0
  | LocationMode.BACK => cap - size
  | LocationMode.MIDDLE => (cap - size) / 2

end SequenceTraits

/-- The gap computation `sequence_traits{.location = MIDDLE}.front_gap(cap, size)`
used by `recenter` and by the MIDDLE storages. -/
def middleGap (cap size : Nat) : Nat := (cap - size) / 2

/-!
## `fixed_sequence_storage<FRONT, T, TRAITS>`

State: the live extent `[capacity_begin, capacity_begin + m_size)`; `m_size`
is `data.length`.  The compile-time capacity `TRAITS.capacity` is passed to the
operations (or assertion predicates) that consult it.
-/

namespace FixedFront

structure St (α : Type) where
  data : List α
deriving DecidableEq, Repr

/-- Implements `size()` (returns `m_size`). -/
def size (s : St α) : Nat := s.data.length

/-- Implements `add_back(args)`: construct at `data_end()`, `++m_size`.  (Release
semantics; the `assert(size() < capacity())` is `addBackAssert`.) -/
def addBack (s : St α) (v : α) : St α := ⟨s.data ++ [v]⟩

/-- The assertion `size() < capacity()` guarding `add_back`. -/
def addBackAssert (cap : Nat) (s : St α) : Prop := size s < cap

/-- Implements `add_at(pos, args)` with `pos = data_begin() + i`: `add_back` when the
sequence is empty or `pos == data_end()`, otherwise `back_add_at` shifts
`[pos, data_end)` up one slot and inserts at `pos`. -/
def addAt (s : St α) (i : Nat) (v : α) : St α :=
  if size s = 0 ∨ i = size s then addBack s v
  else ⟨s.data.insertIdx i v⟩

/-- Implements `add_front(args)` = `add_at(data_begin(), args)`. -/
def addFront (s : St α) (v : α) : St α := addAt s 0 v

/-- Implements `add(count, args)`: `while (count--) add_back(args...)`. -/
def add (s : St α) (count : Nat) (v : α) : St α :=
  match count with
  | 0 => s
  | n + 1 => add (addBack s v) n v

/-- Implements `fill(range)`: copy the range to `capacity_begin()`, set `m_size` to the
range length.  There is no capacity check in the code; the asserts are
`fillAssert`. -/
def fill (il : List α) : St α := ⟨il⟩

/-- The assertions of `fill`: `range.size() <= capacity()` and `size() == 0`
(the latter holds trivially for a freshly constructed storage). -/
def fillAssert (cap : Nat) (il : List α) : Prop := il.length ≤ cap

/-- Implements `clear()`: destroy the extent, `m_size = 0`. -/
def clear (_ : St α) : St α := ⟨[]⟩

/-- Implements `erase(erase_begin, erase_end)` with indices `i ≤ j`: `back_erase` shifts
`[erase_end, data_end)` down and shrinks `m_size`. -/
def eraseRange (s : St α) (i j : Nat) : St α := ⟨s.data.take i ++ s.data.drop j⟩

/-- Implements `erase(element)` at index `i`: the `back_erase` single-element form. -/
def eraseAt (s : St α) (i : Nat) : St α := ⟨s.data.eraseIdx i⟩

/-- Implements `pop_front()` = `erase(data_begin())`. -/
def popFront (s : St α) : St α := eraseAt s 0

/-- Implements `pop_back()`: `--m_size; data_end()->~T()`. -/
def popBack (s : St α) : St α := ⟨s.data.dropLast⟩

/-- The move constructor: `uninitialized_move` of the source extent, copy
`m_size` from the source.  The source's `m_size` is **not** reset, so the
moved-from source keeps its live extent (moved-from values).  Returns
`(destination, source-after-move)`. -/
def moveCtor (rhs : St α) : St α × St α := (⟨rhs.data⟩, ⟨rhs.data⟩)

/-- The copy constructor: `uninitialized_copy`, copy `m_size`. -/
def copyCtor (rhs : St α) : St α × St α := (⟨rhs.data⟩, rhs)

/-- Move assignment: `clear()` then move the source extent and copy its
`m_size`; the source keeps its extent.  Returns `(lhs-after, rhs-after)`. -/
def moveAssign (_ : St α) (rhs : St α) : St α × St α := (⟨rhs.data⟩, ⟨rhs.data⟩)

/-- The constructor `fixed_sequence_storage(SEQ&& rhs)` from another storage:
move the extent to `capacity_begin()`, `m_size = rhs.size()`. -/
def fromSeq (srcData : List α) : St α := ⟨srcData⟩

end FixedFront

/-!
## `fixed_sequence_storage<BACK, T, TRAITS>`

State: the live extent `[capacity_end - m_size, capacity_end)`; `m_size` is
`data.length`.
-/

namespace FixedBack

structure St (α : Type) where
  data : List α
deriving DecidableEq, Repr

/-- Implements `size()` (returns `m_size`). -/
def size (s : St α) : Nat := s.data.length

/-- Implements `add_front(args)`: construct at `data_begin() - 1`, `++m_size`. -/
def addFront (s : St α) (v : α) : St α := ⟨v :: s.data⟩

/-- The assertion `size() < capacity()` guarding `add_front`. -/
def addFrontAssert (cap : Nat) (s : St α) : Prop := size s < cap

/-- Implements `add_at(pos, args)` with `pos = data_begin() + i`: `add_front` when empty
or `pos == data_begin()`, otherwise `front_add_at` shifts `[data_begin, pos)`
down one slot and inserts at `pos - 1` (net effect: insert before index `i`). -/
def addAt (s : St α) (i : Nat) (v : α) : St α :=
  if size s = 0 ∨ i = 0 then addFront s v
  else ⟨s.data.insertIdx i v⟩

/-- Implements `add_back(args)` = `add_at(data_end(), args)`. -/
def addBack (s : St α) (v : α) : St α := addAt s (size s) v

/-- Implements `add(count, args)`: `while (count--) add_front(args...)`. -/
def add (s : St α) (count : Nat) (v : α) : St α :=
  match count with
  | 0 => s
  | n + 1 => add (addFront s v) n v

/-- Implements `fill(range)`: copy the range to `capacity_end() - range.size()`. -/
def fill (il : List α) : St α := ⟨il⟩

/-- The assertion `range.size() <= capacity()` of `fill`. -/
def fillAssert (cap : Nat) (il : List α) : Prop := il.length ≤ cap

/-- Implements `clear()`. -/
def clear (_ : St α) : St α := ⟨[]⟩

/-- Implements `erase(erase_begin, erase_end)` with indices `i ≤ j`: `front_erase` shifts
`[data_begin, erase_begin)` up by the count. -/
def eraseRange (s : St α) (i j : Nat) : St α := ⟨s.data.take i ++ s.data.drop j⟩

/-- Implements `erase(element)` at index `i`: the `front_erase` single-element form. -/
def eraseAt (s : St α) (i : Nat) : St α := ⟨s.data.eraseIdx i⟩

/-- Implements `pop_front()`: destroy the first element, `--m_size`. -/
def popFront (s : St α) : St α := ⟨s.data.tail⟩

/-- Implements `pop_back()` = `erase(data_end() - 1)`. -/
def popBack (s : St α) : St α := eraseAt s (size s - 1)

/-- Move constructor; the source's `m_size` is not reset. -/
def moveCtor (rhs : St α) : St α × St α := (⟨rhs.data⟩, ⟨rhs.data⟩)

/-- Copy constructor. -/
def copyCtor (rhs : St α) : St α × St α := (⟨rhs.data⟩, rhs)

/-- Implements the constructor `fixed_sequence_storage(SEQ&& rhs)`. -/
def fromSeq (srcData : List α) : St α := ⟨srcData⟩

end FixedBack

/-!
## `fixed_sequence_storage<MIDDLE, T, TRAITS>`

State: `m_front_gap`, `m_back_gap` and the live extent
`[capacity_begin + m_front_gap, capacity_end - m_back_gap)`.
The code computes `size()` as `capacity() - (m_front_gap + m_back_gap)`.
-/

namespace FixedMiddle

structure St (α : Type) where
  frontGap : Nat
  backGap : Nat
  data : List α
deriving DecidableEq, Repr

/-- Implements `size()` exactly as the code computes it:
`capacity() - (m_front_gap + m_back_gap)` (in `Nat`, truncated). -/
def sizeC (cap : Nat) (s : St α) : Nat := cap - (s.frontGap + s.backGap)

/-- The storage invariant for MIDDLE: the two gaps and the live extent tile
the capacity. -/
def WF (cap : Nat) (s : St α) : Prop := s.frontGap + s.data.length + s.backGap = cap

/-- Default member initialization: `m_front_gap = TRAITS.front_gap()`
(= `(cap - 0) / 2`), `m_back_gap = TRAITS.capacity - m_front_gap`. -/
def init (cap : Nat) : St α := ⟨middleGap cap 0, cap - middleGap cap 0, []⟩

/-- Implements `::recenter` (the free function) followed by the gap-field update of
`fixed_sequence_storage<MIDDLE>::recenter`: the live extent is moved to a
temporary and back, the new gaps are `front_gap(cap, size)` and the remainder,
swapped when the data was flush at `capacity_begin` (i.e. when making space
at the front). -/
def recenter (cap : Nat) (s : St α) : St α :=
  let sz := s.data.length
  let fg := middleGap cap sz
  let bg := cap - (fg + sz)
  if s.frontGap = 0 then ⟨bg, fg, s.data⟩ else ⟨fg, bg, s.data⟩

/-- Implements `add_back(args)`: recenter if `m_back_gap == 0`, construct at
`data_end()`, `--m_back_gap`. -/
def addBack (cap : Nat) (s : St α) (v : α) : St α :=
  let s := if s.backGap = 0 then recenter cap s else s
  ⟨s.frontGap, s.backGap - 1, s.data ++ [v]⟩

/-- Implements `add_front(args)`: recenter if `m_front_gap == 0`, construct at
`data_begin() - 1`, `--m_front_gap`. -/
def addFront (cap : Nat) (s : St α) (v : α) : St α :=
  let s := if s.frontGap = 0 then recenter cap s else s
  ⟨s.frontGap - 1, s.backGap, v :: s.data⟩

/-- The assertions `size() < capacity()` and `m_front_gap || m_back_gap`
guarding `add_back` / `add_front`. -/
def addAssert (cap : Nat) (s : St α) : Prop :=
  sizeC cap s < cap ∧ (s.frontGap ≠ 0 ∨ s.backGap ≠ 0)

/-- Implements `add_at(pos, args)` with `pos = data_begin() + i`: dispatch to back or
front insertion by which half `pos` lies in (`pos - data_begin() >=
data_end() - pos` chooses the back branch), recentering first when the chosen
gap is exhausted; `back_add_at` / `front_add_at` then insert before index `i`
(the code's `pos` adjustment after a recenter keeps the index unchanged). -/
def addAt (cap : Nat) (s : St α) (i : Nat) (v : α) : St α :=
  if s.data.length = 0 ∨ i = s.data.length then addBack cap s v
  else if i = 0 then addFront cap s v
  else if i ≥ s.data.length - i then
    let s := if s.backGap = 0 then recenter cap s else s
    ⟨s.frontGap, s.backGap - 1, s.data.insertIdx i v⟩
  else
    let s := if s.frontGap = 0 then recenter cap s else s
    ⟨s.frontGap - 1, s.backGap, s.data.insertIdx i v⟩

/-- Implements `add(count, args)`: `while (count--) add_back(args...)`. -/
def add (cap : Nat) (s : St α) (count : Nat) (v : α) : St α :=
  match count with
  | 0 => s
  | n + 1 => add cap (addBack cap s v) n v

/-- Implements `fill(range)`: copy to `capacity_begin() + TRAITS.front_gap(range.size())`,
set the gaps. -/
def fill (cap : Nat) (il : List α) : St α :=
  ⟨middleGap cap il.length, cap - (middleGap cap il.length + il.length), il⟩

/-- The assertion `range.size() <= capacity()` of `fill`. -/
def fillAssert (cap : Nat) (il : List α) : Prop := il.length ≤ cap

/-- Implements `clear()`: reset the gaps to the empty-middle state
(`m_front_gap = TRAITS.front_gap()`, `m_back_gap = capacity - m_front_gap`). -/
def clear (cap : Nat) (_ : St α) : St α := init cap

/-- Implements `erase(erase_begin, erase_end)` with indices `i ≤ j`: erase at the back
(`m_back_gap += count`) when the range is nearer the back or dead center
(`erase_begin - data_begin() >= data_end() - erase_end`), else at the front
(`m_front_gap += count`). -/
def eraseRange (s : St α) (i j : Nat) : St α :=
  if i ≥ s.data.length - j then
    ⟨s.frontGap, s.backGap + (j - i), s.data.take i ++ s.data.drop j⟩
  else
    ⟨s.frontGap + (j - i), s.backGap, s.data.take i ++ s.data.drop j⟩

/-- Implements `erase(element)` at index `i`: the same side choice with a single element. -/
def eraseAt (s : St α) (i : Nat) : St α :=
  if i ≥ s.data.length - i then
    ⟨s.frontGap, s.backGap + 1, s.data.eraseIdx i⟩
  else
    ⟨s.frontGap + 1, s.backGap, s.data.eraseIdx i⟩

/-- Implements `pop_front()`: `++m_front_gap`, destroy the first element. -/
def popFront (s : St α) : St α := ⟨s.frontGap + 1, s.backGap, s.data.tail⟩

/-- Implements `pop_back()`: `++m_back_gap`, destroy the last element. -/
def popBack (s : St α) : St α := ⟨s.frontGap, s.backGap + 1, s.data.dropLast⟩

/-- Move constructor: moves the extent into place at the same offset and
copies both gap fields; the source's gaps are not reset. -/
def moveCtor (rhs : St α) : St α × St α := (⟨rhs.frontGap, rhs.backGap, rhs.data⟩, ⟨rhs.frontGap, rhs.backGap, rhs.data⟩)

/-- Copy constructor. -/
def copyCtor (rhs : St α) : St α × St α := (⟨rhs.frontGap, rhs.backGap, rhs.data⟩, rhs)

/-- Implements `fixed_sequence_storage(SEQ&& rhs)`: offset `TRAITS.front_gap(size)`,
`m_back_gap = TRAITS.capacity - (m_front_gap + size)`. -/
def fromSeq (cap : Nat) (srcData : List α) : St α :=
  ⟨middleGap cap srcData.length, cap - (middleGap cap srcData.length + srcData.length), srcData⟩

end FixedMiddle

/-!
## `dynamic_sequence_storage<FRONT, T, TRAITS>`

State: the owned capacity (`capacity_end - capacity_begin`, zero for the null
buffer) and the live extent `[capacity_begin, m_data_end)`.  A
default-constructed storage has a null buffer: `cap = 0`, empty extent.
-/

namespace DynFront

structure St (α : Type) where
  cap : Nat
  data : List α
deriving DecidableEq, Repr

/-- The default-constructed storage: null buffer, null `m_data_end`. -/
def init : St α := ⟨0, []⟩

/-- Implements `size()` = `data_end() - data_begin()`. -/
def size (s : St α) : Nat := s.data.length

/-- Implements `reallocate(new_cap)`: allocate `new_cap` slots, relocate the
extent to offset 0, release the old buffer. -/
def reallocate (s : St α) (newCap : Nat) : St α := ⟨newCap, s.data⟩

/-- The assertion `size() <= new_cap` of `reallocate`. -/
def reallocateAssert (s : St α) (newCap : Nat) : Prop := size s ≤ newCap

/-- Implements `add_back(args)`: construct at `data_end()`, `++m_data_end`. -/
def addBack (s : St α) (v : α) : St α := ⟨s.cap, s.data ++ [v]⟩

/-- The assertion `size() < capacity()` guarding `add_back`. -/
def addBackAssert (s : St α) : Prop := size s < s.cap

/-- Implements `add_at(pos, args)` with `pos = data_begin() + i`. -/
def addAt (s : St α) (i : Nat) (v : α) : St α :=
  if size s = 0 ∨ i = size s then addBack s v
  else ⟨s.cap, s.data.insertIdx i v⟩

/-- Implements `add_front(args)` = `add_at(data_begin(), args)`. -/
def addFront (s : St α) (v : α) : St α := addAt s 0 v

/-- Implements `add(count, args)`: `while (count--) add_back(args...)`. -/
def add (s : St α) (count : Nat) (v : α) : St α :=
  match count with
  | 0 => s
  | n + 1 => add (addBack s v) n v

/-- Implements `fill(range)`: `dynamic_capacity::fill` allocates exactly
`range.size()` slots and copies; then `m_data_end = capacity_end()`. -/
def fill (il : List α) : St α := ⟨il.length, il⟩

/-- Implements `clear()`: destroy the extent, keep the buffer
(`m_data_end = capacity_begin()`). -/
def clear (s : St α) : St α := ⟨s.cap, []⟩

/-- Implements `erase(erase_begin, erase_end)` with indices `i ≤ j`. -/
def eraseRange (s : St α) (i j : Nat) : St α := ⟨s.cap, s.data.take i ++ s.data.drop j⟩

/-- Implements `erase(element)` at index `i`. -/
def eraseAt (s : St α) (i : Nat) : St α := ⟨s.cap, s.data.eraseIdx i⟩

/-- Implements `pop_front()` = `erase(data_begin())`. -/
def popFront (s : St α) : St α := eraseAt s 0

/-- Implements `pop_back()`: `--m_data_end`, destroy the last element. -/
def popBack (s : St α) : St α := ⟨s.cap, s.data.dropLast⟩

/-- The copy constructor: allocate exactly `rhs.size()` slots
(`inherited(rhs.size())`), copy the extent; the source is read only.
Returns `(destination, source-after)`. -/
def copyCtor (rhs : St α) : St α × St α := (⟨rhs.data.length, rhs.data⟩, rhs)

/-- The move constructor: `swap(rhs)` against a default-constructed storage,
so the source is left with a null buffer and empty extent. -/
def moveCtor (rhs : St α) : St α × St α := (rhs, init)

/-- Move assignment: `clear(); swap(rhs);` — the destination's old (cleared)
buffer ends up in the source.  Returns `(lhs-after, rhs-after)`. -/
def moveAssign (lhs rhs : St α) : St α × St α := (rhs, ⟨lhs.cap, []⟩)

/-- Implements the constructor `dynamic_sequence_storage(size_t cap, SEQ&& rhs)`:
allocate `cap` slots and move the source extent to `capacity_begin()`. -/
def fromSeq (cap : Nat) (srcData : List α) : St α := ⟨cap, srcData⟩

end DynFront

/-!
## `dynamic_sequence_storage<BACK, T, TRAITS>`

State: the owned capacity and the live extent `[m_data_begin, capacity_end)`.
-/

namespace DynBack

structure St (α : Type) where
  cap : Nat
  data : List α
deriving DecidableEq, Repr

/-- The default-constructed storage. -/
def init : St α := ⟨0, []⟩

/-- Implements `size()` = `data_end() - data_begin()`. -/
def size (s : St α) : Nat := s.data.length

/-- Implements `reallocate(new_cap)`: relocate the extent to offset
`TRAITS.front_gap(new_cap, size)` = `new_cap - size`, i.e. flush to the new
`capacity_end`. -/
def reallocate (s : St α) (newCap : Nat) : St α := ⟨newCap, s.data⟩

/-- Implements `add_front(args)`: construct at `data_begin() - 1`,
`--m_data_begin`. -/
def addFront (s : St α) (v : α) : St α := ⟨s.cap, v :: s.data⟩

/-- The assertion `size() < capacity()` guarding `add_front`. -/
def addFrontAssert (s : St α) : Prop := size s < s.cap

/-- Implements `add_at(pos, args)` with `pos = data_begin() + i`. -/
def addAt (s : St α) (i : Nat) (v : α) : St α :=
  if size s = 0 ∨ i = 0 then addFront s v
  else ⟨s.cap, s.data.insertIdx i v⟩

/-- Implements `add_back(args)` = `add_at(data_end(), args)`. -/
def addBack (s : St α) (v : α) : St α := addAt s (size s) v

/-- Implements `add(count, args)`: `while (count--) add_front(args...)`. -/
def add (s : St α) (count : Nat) (v : α) : St α :=
  match count with
  | 0 => s
  | n + 1 => add (addFront s v) n v

/-- Implements `fill(range)`: allocate exactly `range.size()` slots, copy;
`m_data_begin = capacity_begin()`. -/
def fill (il : List α) : St α := ⟨il.length, il⟩

/-- Implements `clear()`: destroy the extent, keep the buffer
(`m_data_begin = capacity_end()`). -/
def clear (s : St α) : St α := ⟨s.cap, []⟩

/-- Implements `erase(erase_begin, erase_end)` with indices `i ≤ j`. -/
def eraseRange (s : St α) (i j : Nat) : St α := ⟨s.cap, s.data.take i ++ s.data.drop j⟩

/-- Implements `erase(element)` at index `i`. -/
def eraseAt (s : St α) (i : Nat) : St α := ⟨s.cap, s.data.eraseIdx i⟩

/-- Implements `pop_front()`: `++m_data_begin`, destroy the first element. -/
def popFront (s : St α) : St α := ⟨s.cap, s.data.tail⟩

/-- Implements `pop_back()` = `erase(data_end() - 1)`. -/
def popBack (s : St α) : St α := eraseAt s (size s - 1)

/-- The copy constructor: capacity exactly `rhs.size()`. -/
def copyCtor (rhs : St α) : St α × St α := (⟨rhs.data.length, rhs.data⟩, rhs)

/-- The move constructor: `swap(rhs)` against a default-constructed storage. -/
def moveCtor (rhs : St α) : St α × St α := (rhs, init)

/-- Move assignment: `clear(); swap(rhs);`. -/
def moveAssign (lhs rhs : St α) : St α × St α := (rhs, ⟨lhs.cap, []⟩)

/-- Implements `dynamic_sequence_storage(size_t cap, SEQ&& rhs)`:
`m_data_begin = capacity_end() - rhs.size()`. -/
def fromSeq (cap : Nat) (srcData : List α) : St α := ⟨cap, srcData⟩

end DynBack

/-!
## `dynamic_sequence_storage<MIDDLE, T, TRAITS>`

State: the owned capacity, the offset `fg = m_data_begin - capacity_begin`,
and the live extent `[m_data_begin, m_data_end)`.  The derived back gap is
`capacity_end - m_data_end = cap - (fg + data.length)`.
-/

namespace DynMiddle

structure St (α : Type) where
  cap : Nat
  fg : Nat
  data : List α
deriving DecidableEq, Repr

/-- The default-constructed storage. -/
def init : St α := ⟨0, 0, []⟩

/-- Implements `size()` = `m_data_end - m_data_begin`. -/
def size (s : St α) : Nat := s.data.length

/-- The front gap `m_data_begin - capacity_begin`. -/
def frontGap (s : St α) : Nat := s.fg

/-- The back gap `capacity_end - m_data_end`. -/
def backGap (s : St α) : Nat := s.cap - (s.fg + s.data.length)

/-- The pointer-ordering invariant `capacity_begin ≤ data_begin ≤ data_end ≤
capacity_end`, which for this representation is `fg + size ≤ cap`. -/
def WF (s : St α) : Prop := s.fg + s.data.length ≤ s.cap

/-- Implements `::recenter` and the pointer update of
`dynamic_sequence_storage<MIDDLE>::recenter`. -/
def recenter (s : St α) : St α :=
  let sz := s.data.length
  let f := middleGap s.cap sz
  let b := s.cap - (f + sz)
  if s.fg = 0 then ⟨s.cap, b, s.data⟩ else ⟨s.cap, f, s.data⟩

/-- Implements `reallocate(new_cap)`: relocate the extent to offset
`TRAITS.front_gap(new_cap, size)` = `(new_cap - size) / 2`. -/
def reallocate (s : St α) (newCap : Nat) : St α :=
  ⟨newCap, middleGap newCap s.data.length, s.data⟩

/-- Implements `add_back(args)`: recenter if `m_data_end == capacity_end()`
(back gap 0), construct at `m_data_end`, `++m_data_end`. -/
def addBack (s : St α) (v : α) : St α :=
  let s := if s.fg + s.data.length = s.cap then recenter s else s
  ⟨s.cap, s.fg, s.data ++ [v]⟩

/-- Implements `add_front(args)`: recenter if `m_data_begin ==
capacity_begin()`, construct at `m_data_begin - 1`, `--m_data_begin`. -/
def addFront (s : St α) (v : α) : St α :=
  let s := if s.fg = 0 then recenter s else s
  ⟨s.cap, s.fg - 1, v :: s.data⟩

/-- The assertions `size() < capacity()` and `m_data_begin > capacity_begin()
|| m_data_end < capacity_end()` guarding `add_back` / `add_front`. -/
def addAssert (s : St α) : Prop :=
  size s < s.cap ∧ (s.fg ≠ 0 ∨ s.fg + s.data.length ≠ s.cap)

/-- Implements `add_at(pos, args)` with `pos = data_begin() + i`: branch
selection as in the fixed MIDDLE storage (the code's `pos` adjustment after a
recenter keeps the index unchanged). -/
def addAt (s : St α) (i : Nat) (v : α) : St α :=
  if s.data.length = 0 ∨ i = s.data.length then addBack s v
  else if i = 0 then addFront s v
  else if i ≥ s.data.length - i then
    let s := if s.fg + s.data.length = s.cap then recenter s else s
    ⟨s.cap, s.fg, s.data.insertIdx i v⟩
  else
    let s := if s.fg = 0 then recenter s else s
    ⟨s.cap, s.fg - 1, s.data.insertIdx i v⟩

/-- Implements `add(count, args)`: `while (count--) add_back(args...)`. -/
def add (s : St α) (count : Nat) (v : α) : St α :=
  match count with
  | 0 => s
  | n + 1 => add (addBack s v) n v

/-- Implements `fill(range)`: allocate exactly `range.size()` slots, copy;
`m_data_begin = capacity_begin()`, `m_data_end = capacity_end()`. -/
def fill (il : List α) : St α := ⟨il.length, 0, il⟩

/-- Implements `clear()`: destroy the extent,
`m_data_begin = m_data_end = capacity_begin() + front_gap(capacity(), 0)`. -/
def clear (s : St α) : St α := ⟨s.cap, middleGap s.cap 0, []⟩

/-- Implements `erase(erase_begin, erase_end)` with indices `i ≤ j`: erase at
the back (`m_data_end -= count`) when `erase_begin - data_begin() >=
data_end() - erase_end`, else at the front (`m_data_begin += count`). -/
def eraseRange (s : St α) (i j : Nat) : St α :=
  if i ≥ s.data.length - j then
    ⟨s.cap, s.fg, s.data.take i ++ s.data.drop j⟩
  else
    ⟨s.cap, s.fg + (j - i), s.data.take i ++ s.data.drop j⟩

/-- Implements `erase(element)` at index `i`. -/
def eraseAt (s : St α) (i : Nat) : St α :=
  if i ≥ s.data.length - i then
    ⟨s.cap, s.fg, s.data.eraseIdx i⟩
  else
    ⟨s.cap, s.fg + 1, s.data.eraseIdx i⟩

/-- Implements `pop_front()`: destroy the first element, `++m_data_begin`. -/
def popFront (s : St α) : St α := ⟨s.cap, s.fg + 1, s.data.tail⟩

/-- Implements `pop_back()`: destroy the last element, `--m_data_end`. -/
def popBack (s : St α) : St α := ⟨s.cap, s.fg, s.data.dropLast⟩

/-- The copy constructor: capacity exactly `rhs.size()`,
`m_data_begin = capacity_begin()`, `m_data_end = capacity_end()`. -/
def copyCtor (rhs : St α) : St α × St α := (⟨rhs.data.length, 0, rhs.data⟩, rhs)

/-- The move constructor: `swap(rhs)` against a default-constructed storage. -/
def moveCtor (rhs : St α) : St α × St α := (rhs, init)

/-- Move assignment: `clear(); swap(rhs);`. -/
def moveAssign (lhs rhs : St α) : St α × St α :=
  (rhs, ⟨lhs.cap, middleGap lhs.cap 0, []⟩)

/-- Implements `dynamic_sequence_storage(size_t cap, SEQ&& rhs)`:
`m_data_begin = capacity_begin() + TRAITS.front_gap(capacity(), size)`. -/
def fromSeq (cap : Nat) (srcData : List α) : St α :=
  ⟨cap, middleGap cap srcData.length, srcData⟩

end DynMiddle

/-!
## `sequence_implementation<STATIC>` and the façade over it

The STATIC dispatcher wraps a `fixed_sequence_storage` by value; `capacity()`
is the constexpr `TRAITS.capacity` and `reallocate` throws `std::bad_alloc`.
The façade operations (`sequence<T, TRAITS>`) below are specialized per
location; `cap` is `TRAITS.capacity`.
-/

namespace StaticSeq

namespace Front

/-- Implements `sequence(std::initializer_list)`: default-construct, then
`fill(il)`.  The STATIC dispatcher forwards to the fixed storage `fill`; no
capacity check is performed anywhere on this path (only the storage's
`assert`, `FixedFront.fillAssert`). -/
def fromIL (il : List α) : FixedFront.St α := FixedFront.fill il

/-- Implements the defaulted move constructor: member-wise move of the fixed
storage.  Returns `(destination, source-after-move)`. -/
def moveCtor (rhs : FixedFront.St α) : FixedFront.St α × FixedFront.St α :=
  FixedFront.moveCtor rhs

/-- Implements `reserve(new_capacity)`: reallocating a STATIC sequence throws
`std::bad_alloc`. -/
def reserve (cap : Nat) (s : FixedFront.St α) (n : Nat) : Except SeqError (FixedFront.St α) :=
  if n > cap then Except.error SeqError.CapacityExceeded else Except.ok s

/-- Implements `emplace_back(args)`: reallocate (throwing for STATIC) when
`size() == capacity()`, else `add_back`. -/
def emplaceBack (cap : Nat) (s : FixedFront.St α) (v : α) : Except SeqError (FixedFront.St α) :=
  if FixedFront.size s = cap then Except.error SeqError.CapacityExceeded
  else Except.ok (FixedFront.addBack s v)

/-- Implements `resize(new_size, args)`: erase the tail when shrinking;
when growing, `reallocate(max(new_size, traits.capacity))` (which throws for
STATIC) if `new_size > capacity()`, then `add(new_size - old_size, args)`. -/
def resize (cap : Nat) (s : FixedFront.St α) (n : Nat) (v : α) : Except SeqError (FixedFront.St α) :=
  let old := FixedFront.size s
  if n < old then Except.ok (FixedFront.eraseRange s (s.data.length - (old - n)) s.data.length)
  else if n > old then
    if n > cap then Except.error SeqError.CapacityExceeded
    else Except.ok (FixedFront.add s (n - old) v)
  else Except.ok s

end Front

namespace Back

/-- Implements `sequence(std::initializer_list)` for STATIC / BACK. -/
def fromIL (il : List α) : FixedBack.St α := FixedBack.fill il

/-- Implements the defaulted move constructor. -/
def moveCtor (rhs : FixedBack.St α) : FixedBack.St α × FixedBack.St α :=
  FixedBack.moveCtor rhs

/-- Implements `resize(new_size, args)` for STATIC / BACK (the storage's `add`
calls `add_front` repeatedly). -/
def resize (cap : Nat) (s : FixedBack.St α) (n : Nat) (v : α) : Except SeqError (FixedBack.St α) :=
  let old := FixedBack.size s
  if n < old then Except.ok (FixedBack.eraseRange s (s.data.length - (old - n)) s.data.length)
  else if n > old then
    if n > cap then Except.error SeqError.CapacityExceeded
    else Except.ok (FixedBack.add s (n - old) v)
  else Except.ok s

end Back

namespace Middle

/-- Implements `sequence(std::initializer_list)` for STATIC / MIDDLE. -/
def fromIL (cap : Nat) (il : List α) : FixedMiddle.St α := FixedMiddle.fill cap il

/-- Implements the defaulted move constructor. -/
def moveCtor (rhs : FixedMiddle.St α) : FixedMiddle.St α × FixedMiddle.St α :=
  FixedMiddle.moveCtor rhs

/-- Implements `emplace_back(args)`: reallocate (throwing for STATIC) when
`size() == capacity()`, else `add_back`. -/
def emplaceBack (cap : Nat) (s : FixedMiddle.St α) (v : α) : Except SeqError (FixedMiddle.St α) :=
  if FixedMiddle.sizeC cap s = cap then Except.error SeqError.CapacityExceeded
  else Except.ok (FixedMiddle.addBack cap s v)

/-- Implements `resize(new_size, args)` for STATIC / MIDDLE. -/
def resize (cap : Nat) (s : FixedMiddle.St α) (n : Nat) (v : α) : Except SeqError (FixedMiddle.St α) :=
  let old := FixedMiddle.sizeC cap s
  if n < old then Except.ok (FixedMiddle.eraseRange s (s.data.length - (old - n)) s.data.length)
  else if n > old then
    if n > cap then Except.error SeqError.CapacityExceeded
    else Except.ok (FixedMiddle.add cap s (n - old) v)
  else Except.ok s

end Middle

end StaticSeq

/-!
## `sequence_implementation<FIXED>` and the façade over it

The FIXED dispatcher holds `std::unique_ptr<storage_type> m_storage`, null
until the first mutation.  `size()` guards the null pointer
(`m_storage ? m_storage->size() : 0`) but `clear`, `erase`, `pop_front` and
`pop_back` call through `m_storage` with **no null guard**; the null branch is
modelled as an `Option` result whose `none` marks the null dereference.
`capacity()` is the constexpr `TRAITS.capacity` and `reallocate` throws
`std::bad_alloc`.  The dispatcher is location-generic; it is instantiated here
with the FRONT storage. -/

namespace FixedImpl

/-- The dispatcher state: `std::unique_ptr<storage_type>`, null when absent. -/
abbrev St (α : Type) := Option (FixedFront.St α)

/-- Implements `size()`: `m_storage ? m_storage->size() : 0`. -/
def size : St α → Nat
  | none => 0
  | some s => FixedFront.size s

/-- Implements `capacity()`: the constexpr `TRAITS.capacity`. -/
def capacity (tcap : Nat) (_ : St α) : Nat := tcap

/-- Implements `is_dynamic()`. -/
def isDynamic (_ : St α) : Bool := true

/-- Implements `clear()`: `m_storage->clear(); m_storage.reset();` with no
null guard — on the absent state this dereferences a null pointer, modelled
as the `none` result. -/
def clear : St α → Option (St α)
  | none => none
  | some _ => some none

/-- Implements `pop_front()`: `m_storage->pop_front()` with no null guard. -/
def popFront : St α → Option (St α)
  | none => none
  | some s => some (some (FixedFront.popFront s))

/-- Implements `pop_back()`: `m_storage->pop_back()` with no null guard. -/
def popBack : St α → Option (St α)
  | none => none
  | some s => some (some (FixedFront.popBack s))

/-- Implements `erase(element)`: `m_storage->erase(...)` with no null guard. -/
def eraseAt : St α → Nat → Option (St α)
  | none, _ => none
  | some s, i => some (some (FixedFront.eraseAt s i))

/-- Implements `add_back(args)`: lazily allocate the storage on first
mutation, then `m_storage->add_back(...)`. -/
def addBack : St α → α → St α
  | none, v => some (FixedFront.addBack ⟨[]⟩ v)
  | some s, v => some (FixedFront.addBack s v)

/-- Implements `fill(il)`: allocate the storage, `m_storage->fill(il)`. -/
def fillIL (il : List α) : St α := some (FixedFront.fill il)

/-- Implements the façade `shrink_to_fit()` over the FIXED dispatcher:
`if (size() < capacity()) reallocate(size())`, and the FIXED `reallocate`
unconditionally throws `std::bad_alloc`. -/
def shrinkToFit (tcap : Nat) (s : St α) : Except SeqError (St α) :=
  if size s < tcap then Except.error SeqError.CapacityExceeded else Except.ok s

/-- Implements the façade `reserve(n)` over the FIXED dispatcher. -/
def reserve (tcap : Nat) (s : St α) (n : Nat) : Except SeqError (St α) :=
  if n > tcap then Except.error SeqError.CapacityExceeded else Except.ok s

/-- Implements the defaulted move constructor: `std::unique_ptr` move leaves
the source null. -/
def moveCtor (rhs : St α) : St α × St α := (rhs, none)

end FixedImpl

/-!
## `sequence_implementation<VARIABLE>` and the façade over it

The VARIABLE dispatcher wraps the dynamic storage directly; all operations
delegate.  The façade operations below are specialized per location; `tcap`
is `TRAITS.capacity` (the initial capacity on first allocation).
-/

namespace VarSeq

namespace Front

/-- Implements `sequence(std::initializer_list)` for VARIABLE / FRONT. -/
def fromIL (il : List α) : DynFront.St α := DynFront.fill il

/-- Implements `reserve(new_capacity)`:
`if (new_capacity > capacity()) reallocate(new_capacity)`. -/
def reserve (s : DynFront.St α) (n : Nat) : DynFront.St α :=
  if n > s.cap then DynFront.reallocate s n else s

/-- Implements `shrink_to_fit()`:
`if (size() < capacity()) reallocate(size())`. -/
def shrinkToFit (s : DynFront.St α) : DynFront.St α :=
  if DynFront.size s < s.cap then DynFront.reallocate s (DynFront.size s) else s

/-- Implements `resize(new_size, args)` for VARIABLE / FRONT. -/
def resize (tcap : Nat) (s : DynFront.St α) (n : Nat) (v : α) : DynFront.St α :=
  let old := DynFront.size s
  if n < old then DynFront.eraseRange s (s.data.length - (old - n)) s.data.length
  else if n > old then
    let s := if n > s.cap then DynFront.reallocate s (max n tcap) else s
    DynFront.add s (n - old) v
  else s

end Front

namespace Back

/-- Implements `sequence(std::initializer_list)` for VARIABLE / BACK. -/
def fromIL (il : List α) : DynBack.St α := DynBack.fill il

/-- Implements `resize(new_size, args)` for VARIABLE / BACK (the storage's
`add` calls `add_front` repeatedly). -/
def resize (tcap : Nat) (s : DynBack.St α) (n : Nat) (v : α) : DynBack.St α :=
  let old := DynBack.size s
  if n < old then DynBack.eraseRange s (s.data.length - (old - n)) s.data.length
  else if n > old then
    let s := if n > s.cap then DynBack.reallocate s (max n tcap) else s
    DynBack.add s (n - old) v
  else s

end Back

namespace Middle

/-- Implements `sequence(std::initializer_list)` for VARIABLE / MIDDLE. -/
def fromIL (il : List α) : DynMiddle.St α := DynMiddle.fill il

/-- Implements `resize(new_size, args)` for VARIABLE / MIDDLE. -/
def resize (tcap : Nat) (s : DynMiddle.St α) (n : Nat) (v : α) : DynMiddle.St α :=
  let old := DynMiddle.size s
  if n < old then DynMiddle.eraseRange s (s.data.length - (old - n)) s.data.length
  else if n > old then
    let s := if n > s.cap then DynMiddle.reallocate s (max n tcap) else s
    DynMiddle.add s (n - old) v
  else s

end Middle

end VarSeq

/-!
## `sequence_implementation<BUFFERED>` and the façade over it

The BUFFERED dispatcher holds `std::variant<fixed_type, dynamic_type>`; the
first alternative (`STC`, the inline buffer) is active after default
construction.  It is location-generic; it is instantiated here with the FRONT
storages.  `tcap` is `TRAITS.capacity` (the inline buffer capacity).
-/

namespace BufferedImpl

/-- The dispatcher state: `std::variant<fixed_type, dynamic_type>`. -/
abbrev St (α : Type) := FixedFront.St α ⊕ DynFront.St α

/-- The default-constructed state: the variant holds the inline storage. -/
def init : St α := Sum.inl ⟨[]⟩

/-- Implements `capacity()`: the inline storage reports the constexpr
`TRAITS.capacity`; the dynamic storage reports its allocated capacity. -/
def capacity (tcap : Nat) : St α → Nat
  | Sum.inl _ => tcap
  | Sum.inr d => d.cap

/-- Implements `size()`. -/
def size : St α → Nat
  | Sum.inl s => FixedFront.size s
  | Sum.inr d => DynFront.size d

/-- Implements `is_dynamic()`: reports the active variant alternative. -/
def isDynamic : St α → Bool
  | Sum.inl _ => false
  | Sum.inr _ => true

/-- Implements `clear()`: inline — clear in place; heap —
`m_storage.emplace<STC>()` destroys the dynamic storage (elements and buffer)
and default-constructs a fresh inline storage. -/
def clear : St α → St α
  | Sum.inl s => Sum.inl (FixedFront.clear s)
  | Sum.inr _ => Sum.inl ⟨[]⟩

/-- Implements `reallocate(new_capacity)`: the inline↔heap transition logic.
A new capacity over `TRAITS.capacity` moves to (or resizes) the heap storage;
one that fits the buffer moves heap contents back inline (dropping the heap
buffer) and is a no-op when already inline. -/
def reallocate (tcap newCap : Nat) : St α → St α
  | Sum.inl s =>
    if newCap > tcap then Sum.inr (DynFront.fromSeq newCap s.data) else Sum.inl s
  | Sum.inr d =>
    if newCap > tcap then Sum.inr (DynFront.reallocate d newCap)
    else Sum.inl (FixedFront.fromSeq d.data)

/-- Implements the façade `reserve(new_capacity)`:
`if (new_capacity > capacity()) reallocate(new_capacity)`. -/
def reserve (tcap : Nat) (st : St α) (n : Nat) : St α :=
  if n > capacity tcap st then reallocate tcap n st else st

/-- Implements the façade `shrink_to_fit()`:
`if (size() < capacity()) reallocate(size())`. -/
def shrinkToFit (tcap : Nat) (st : St α) : St α :=
  if size st < capacity tcap st then reallocate tcap (size st) st else st

/-- Implements `fill(il)` (hence the initializer-list constructor): inline
when `il.size() <= TRAITS.capacity`, otherwise switch to a heap storage of
capacity exactly `il.size()`. -/
def fillIL (tcap : Nat) (il : List α) : St α :=
  if il.length ≤ tcap then Sum.inl (FixedFront.fill il) else Sum.inr (DynFront.fill il)

/-- Implements the defaulted move constructor: `std::variant` move
move-constructs the active alternative in place; the source keeps its
alternative (inline: storage keeps its size; heap: storage is left null). -/
def moveCtor : St α → St α × St α
  | Sum.inl s => (Sum.inl (FixedFront.moveCtor s).1, Sum.inl (FixedFront.moveCtor s).2)
  | Sum.inr d => (Sum.inr (DynFront.moveCtor d).1, Sum.inr (DynFront.moveCtor d).2)

/-- Implements the defaulted copy constructor: `std::variant` copy
copy-constructs the active alternative. -/
def copyCtor : St α → St α × St α
  | Sum.inl s => (Sum.inl (FixedFront.copyCtor s).1, Sum.inl (FixedFront.copyCtor s).2)
  | Sum.inr d => (Sum.inr (DynFront.copyCtor d).1, Sum.inr (DynFront.copyCtor d).2)

end BufferedImpl

/-!
## Helper lemmas
-/

theorem fixedFront_add_data (s : FixedFront.St α) (c : Nat) (v : α) :
    (FixedFront.add s c v).data = s.data ++ List.replicate c v := by
  induction c generalizing s with
  | zero => simp [FixedFront.add]
  | succ n ih => simp [FixedFront.add, FixedFront.addBack, ih, List.replicate_succ]

theorem fixedBack_add_data (s : FixedBack.St α) (c : Nat) (v : α) :
    (FixedBack.add s c v).data = List.replicate c v ++ s.data := by
  induction c generalizing s with
  | zero => simp [FixedBack.add]
  | succ n ih => simp [FixedBack.add, FixedBack.addFront, ih, List.replicate_succ']

theorem fixedMiddle_recenter_data (cap : Nat) (s : FixedMiddle.St α) :
    (FixedMiddle.recenter cap s).data = s.data := by
  unfold FixedMiddle.recenter
  by_cases h : s.frontGap = 0 <;> simp [h]

theorem fixedMiddle_addBack_data (cap : Nat) (s : FixedMiddle.St α) (v : α) :
    (FixedMiddle.addBack cap s v).data = s.data ++ [v] := by
  unfold FixedMiddle.addBack
  by_cases h : s.backGap = 0 <;> simp [h, fixedMiddle_recenter_data]

theorem fixedMiddle_add_data (cap : Nat) (s : FixedMiddle.St α) (c : Nat) (v : α) :
    (FixedMiddle.add cap s c v).data = s.data ++ List.replicate c v := by
  induction c generalizing s with
  | zero => simp [FixedMiddle.add]
  | succ n ih => simp [FixedMiddle.add, ih, fixedMiddle_addBack_data, List.replicate_succ]

theorem dynFront_add_data (s : DynFront.St α) (c : Nat) (v : α) :
    (DynFront.add s c v).data = s.data ++ List.replicate c v := by
  induction c generalizing s with
  | zero => simp [DynFront.add]
  | succ n ih => simp [DynFront.add, DynFront.addBack, ih, List.replicate_succ]

theorem dynFront_add_cap (s : DynFront.St α) (c : Nat) (v : α) :
    (DynFront.add s c v).cap = s.cap := by
  induction c generalizing s with
  | zero => simp [DynFront.add]
  | succ n ih => simp [DynFront.add, DynFront.addBack, ih]

theorem dynBack_add_data (s : DynBack.St α) (c : Nat) (v : α) :
    (DynBack.add s c v).data = List.replicate c v ++ s.data := by
  induction c generalizing s with
  | zero => simp [DynBack.add]
  | succ n ih => simp [DynBack.add, DynBack.addFront, ih, List.replicate_succ']

theorem dynBack_add_cap (s : DynBack.St α) (c : Nat) (v : α) :
    (DynBack.add s c v).cap = s.cap := by
  induction c generalizing s with
  | zero => simp [DynBack.add]
  | succ n ih => simp [DynBack.add, DynBack.addFront, ih]

theorem dynMiddle_recenter_data (s : DynMiddle.St α) :
    (DynMiddle.recenter s).data = s.data := by
  unfold DynMiddle.recenter
  by_cases h : s.fg = 0 <;> simp [h]

theorem dynMiddle_recenter_cap (s : DynMiddle.St α) :
    (DynMiddle.recenter s).cap = s.cap := by
  unfold DynMiddle.recenter
  by_cases h : s.fg = 0 <;> simp [h]

theorem dynMiddle_addBack_data (s : DynMiddle.St α) (v : α) :
    (DynMiddle.addBack s v).data = s.data ++ [v] := by
  unfold DynMiddle.addBack
  by_cases h : s.fg + s.data.length = s.cap <;> simp [h, dynMiddle_recenter_data]

theorem dynMiddle_addBack_cap (s : DynMiddle.St α) (v : α) :
    (DynMiddle.addBack s v).cap = s.cap := by
  unfold DynMiddle.addBack
  by_cases h : s.fg + s.data.length = s.cap <;> simp [h, dynMiddle_recenter_cap]

theorem dynMiddle_add_data (s : DynMiddle.St α) (c : Nat) (v : α) :
    (DynMiddle.add s c v).data = s.data ++ List.replicate c v := by
  induction c generalizing s with
  | zero => simp [DynMiddle.add]
  | succ n ih => simp [DynMiddle.add, ih, dynMiddle_addBack_data, List.replicate_succ]

theorem dynMiddle_add_cap (s : DynMiddle.St α) (c : Nat) (v : α) :
    (DynMiddle.add s c v).cap = s.cap := by
  induction c generalizing s with
  | zero => simp [DynMiddle.add]
  | succ n ih => simp [DynMiddle.add, ih, dynMiddle_addBack_cap]

theorem fixedMiddle_wf_init (cap : Nat) :
    FixedMiddle.WF cap (FixedMiddle.init cap : FixedMiddle.St α) := by
  simp only [FixedMiddle.WF, FixedMiddle.init, middleGap, List.length_nil]
  omega

theorem fixedMiddle_wf_fill (cap : Nat) (il : List α) (h : il.length ≤ cap) :
    FixedMiddle.WF cap (FixedMiddle.fill cap il) := by
  simp only [FixedMiddle.WF, FixedMiddle.fill, middleGap]
  omega

theorem fixedMiddle_wf_recenter (cap : Nat) (s : FixedMiddle.St α) (h : FixedMiddle.WF cap s) :
    FixedMiddle.WF cap (FixedMiddle.recenter cap s) := by
  unfold FixedMiddle.WF FixedMiddle.recenter middleGap at *
  by_cases hf : s.frontGap = 0 <;> simp [hf] <;> omega

theorem fixedMiddle_wf_addBack (cap : Nat) (s : FixedMiddle.St α) (v : α)
    (h : FixedMiddle.WF cap s) (hlt : s.data.length < cap) :
    FixedMiddle.WF cap (FixedMiddle.addBack cap s v) := by
  unfold FixedMiddle.WF FixedMiddle.addBack FixedMiddle.recenter middleGap at *
  split_ifs <;> simp_all <;> omega

theorem fixedMiddle_wf_addFront (cap : Nat) (s : FixedMiddle.St α) (v : α)
    (h : FixedMiddle.WF cap s) (hlt : s.data.length < cap) :
    FixedMiddle.WF cap (FixedMiddle.addFront cap s v) := by
  unfold FixedMiddle.WF FixedMiddle.addFront FixedMiddle.recenter middleGap at *
  split_ifs <;> simp_all <;> omega

theorem fixedMiddle_wf_addAt (cap : Nat) (s : FixedMiddle.St α) (i : Nat) (v : α)
    (h : FixedMiddle.WF cap s) (hi : i ≤ s.data.length) (hlt : s.data.length < cap) :
    FixedMiddle.WF cap (FixedMiddle.addAt cap s i v) := by
  have hlen : (s.data.insertIdx i v).length = s.data.length + 1 :=
    List.length_insertIdx i s.data hi
  unfold FixedMiddle.addAt FixedMiddle.addBack FixedMiddle.addFront FixedMiddle.recenter middleGap
  unfold FixedMiddle.WF at h ⊢
  split_ifs <;> simp_all <;> omega

theorem fixedMiddle_wf_add (cap : Nat) (s : FixedMiddle.St α) (c : Nat) (v : α)
    (h : FixedMiddle.WF cap s) (hc : s.data.length + c ≤ cap) :
    FixedMiddle.WF cap (FixedMiddle.add cap s c v) := by
  induction c generalizing s with
  | zero => simpa [FixedMiddle.add] using h
  | succ n ih =>
    have h1 : FixedMiddle.WF cap (FixedMiddle.addBack cap s v) :=
      fixedMiddle_wf_addBack cap s v h (by omega)
    have h2 : (FixedMiddle.addBack cap s v).data.length = s.data.length + 1 := by
      simp [fixedMiddle_addBack_data]
    show FixedMiddle.WF cap (FixedMiddle.add cap (FixedMiddle.addBack cap s v) n v)
    exact ih _ h1 (by omega)

theorem fixedMiddle_wf_clear (cap : Nat) (s : FixedMiddle.St α) :
    FixedMiddle.WF cap (FixedMiddle.clear cap s) := fixedMiddle_wf_init cap

theorem fixedMiddle_wf_eraseRange (cap : Nat) (s : FixedMiddle.St α) (i j : Nat)
    (h : FixedMiddle.WF cap s) (hij : i ≤ j) (hj : j ≤ s.data.length) :
    FixedMiddle.WF cap (FixedMiddle.eraseRange s i j) := by
  unfold FixedMiddle.WF FixedMiddle.eraseRange at *
  by_cases hside : i ≥ s.data.length - j <;> simp [hside] <;> omega

theorem fixedMiddle_wf_eraseAt (cap : Nat) (s : FixedMiddle.St α) (i : Nat)
    (h : FixedMiddle.WF cap s) (hi : i < s.data.length) :
    FixedMiddle.WF cap (FixedMiddle.eraseAt s i) := by
  have hlen : (s.data.eraseIdx i).length + 1 = s.data.length :=
    List.length_eraseIdx_add_one hi
  unfold FixedMiddle.WF FixedMiddle.eraseAt at *
  by_cases hside : i ≥ s.data.length - i <;> simp [hside] <;> omega

theorem fixedMiddle_wf_popFront (cap : Nat) (s : FixedMiddle.St α)
    (h : FixedMiddle.WF cap s) (hn : 1 ≤ s.data.length) :
    FixedMiddle.WF cap (FixedMiddle.popFront s) := by
  unfold FixedMiddle.WF FixedMiddle.popFront at *
  simp only [List.length_tail]
  omega

theorem fixedMiddle_wf_popBack (cap : Nat) (s : FixedMiddle.St α)
    (h : FixedMiddle.WF cap s) (hn : 1 ≤ s.data.length) :
    FixedMiddle.WF cap (FixedMiddle.popBack s) := by
  unfold FixedMiddle.WF FixedMiddle.popBack at *
  simp only [List.length_dropLast]
  omega

theorem fixedMiddle_wf_fromSeq (cap : Nat) (l : List α) (h : l.length ≤ cap) :
    FixedMiddle.WF cap (FixedMiddle.fromSeq cap l) := by
  simp only [FixedMiddle.WF, FixedMiddle.fromSeq, middleGap]
  omega

theorem dynMiddle_wf_init : DynMiddle.WF (DynMiddle.init : DynMiddle.St α) := by
  simp [DynMiddle.WF, DynMiddle.init]

theorem dynMiddle_wf_fill (il : List α) : DynMiddle.WF (DynMiddle.fill il) := by
  simp [DynMiddle.WF, DynMiddle.fill]

theorem dynMiddle_wf_recenter (s : DynMiddle.St α) (h : DynMiddle.WF s) :
    DynMiddle.WF (DynMiddle.recenter s) := by
  unfold DynMiddle.WF DynMiddle.recenter middleGap at *
  by_cases hf : s.fg = 0 <;> simp [hf] <;> omega

theorem dynMiddle_wf_addBack (s : DynMiddle.St α) (v : α)
    (h : DynMiddle.WF s) (hlt : s.data.length < s.cap) :
    DynMiddle.WF (DynMiddle.addBack s v) := by
  unfold DynMiddle.WF DynMiddle.addBack DynMiddle.recenter middleGap at *
  split_ifs <;> simp_all <;> omega

theorem dynMiddle_wf_addFront (s : DynMiddle.St α) (v : α)
    (h : DynMiddle.WF s) (hlt : s.data.length < s.cap) :
    DynMiddle.WF (DynMiddle.addFront s v) := by
  unfold DynMiddle.WF DynMiddle.addFront DynMiddle.recenter middleGap at *
  split_ifs <;> simp_all <;> omega

theorem dynMiddle_wf_addAt (s : DynMiddle.St α) (i : Nat) (v : α)
    (h : DynMiddle.WF s) (hi : i ≤ s.data.length) (hlt : s.data.length < s.cap) :
    DynMiddle.WF (DynMiddle.addAt s i v) := by
  have hlen : (s.data.insertIdx i v).length = s.data.length + 1 :=
    List.length_insertIdx i s.data hi
  unfold DynMiddle.addAt DynMiddle.addBack DynMiddle.addFront DynMiddle.recenter middleGap
  unfold DynMiddle.WF at h ⊢
  split_ifs <;> simp_all <;> omega

theorem dynMiddle_wf_add (s : DynMiddle.St α) (c : Nat) (v : α)
    (h : DynMiddle.WF s) (hc : s.data.length + c ≤ s.cap) :
    DynMiddle.WF (DynMiddle.add s c v) := by
  induction c generalizing s with
  | zero => simpa [DynMiddle.add] using h
  | succ n ih =>
    have h1 : DynMiddle.WF (DynMiddle.addBack s v) := dynMiddle_wf_addBack s v h (by omega)
    have h2 : (DynMiddle.addBack s v).data.length = s.data.length + 1 := by
      simp [dynMiddle_addBack_data]
    have h3 : (DynMiddle.addBack s v).cap = s.cap := dynMiddle_addBack_cap s v
    show DynMiddle.WF (DynMiddle.add (DynMiddle.addBack s v) n v)
    exact ih _ h1 (by omega)

theorem dynMiddle_wf_clear (s : DynMiddle.St α) : DynMiddle.WF (DynMiddle.clear s) := by
  simp only [DynMiddle.WF, DynMiddle.clear, middleGap, List.length_nil]
  omega

theorem dynMiddle_wf_reallocate (s : DynMiddle.St α) (newCap : Nat)
    (h : s.data.length ≤ newCap) : DynMiddle.WF (DynMiddle.reallocate s newCap) := by
  simp only [DynMiddle.WF, DynMiddle.reallocate, middleGap]
  omega

theorem dynMiddle_wf_eraseRange (s : DynMiddle.St α) (i j : Nat)
    (h : DynMiddle.WF s) (hij : i ≤ j) (hj : j ≤ s.data.length) :
    DynMiddle.WF (DynMiddle.eraseRange s i j) := by
  unfold DynMiddle.WF DynMiddle.eraseRange at *
  by_cases hside : i ≥ s.data.length - j <;> simp [hside] <;> omega

theorem dynMiddle_wf_eraseAt (s : DynMiddle.St α) (i : Nat)
    (h : DynMiddle.WF s) (hi : i < s.data.length) :
    DynMiddle.WF (DynMiddle.eraseAt s i) := by
  have hlen : (s.data.eraseIdx i).length + 1 = s.data.length :=
    List.length_eraseIdx_add_one hi
  unfold DynMiddle.WF DynMiddle.eraseAt at *
  by_cases hside : i ≥ s.data.length - i <;> simp [hside] <;> omega

theorem dynMiddle_wf_popFront (s : DynMiddle.St α)
    (h : DynMiddle.WF s) (hn : 1 ≤ s.data.length) :
    DynMiddle.WF (DynMiddle.popFront s) := by
  unfold DynMiddle.WF DynMiddle.popFront at *
  simp only [List.length_tail]
  omega

theorem dynMiddle_wf_popBack (s : DynMiddle.St α)
    (h : DynMiddle.WF s) (hn : 1 ≤ s.data.length) :
    DynMiddle.WF (DynMiddle.popBack s) := by
  unfold DynMiddle.WF DynMiddle.popBack at *
  simp only [List.length_dropLast]
  omega

theorem dynMiddle_wf_copyCtor (rhs : DynMiddle.St α) :
    DynMiddle.WF (DynMiddle.copyCtor rhs).1 := by
  simp [DynMiddle.WF, DynMiddle.copyCtor]

theorem dynMiddle_wf_moveCtor (rhs : DynMiddle.St α) (h : DynMiddle.WF rhs) :
    DynMiddle.WF (DynMiddle.moveCtor rhs).1 ∧ DynMiddle.WF (DynMiddle.moveCtor rhs).2 :=
  ⟨h, dynMiddle_wf_init⟩

theorem dynMiddle_wf_fromSeq (cap : Nat) (l : List α) (h : l.length ≤ cap) :
    DynMiddle.WF (DynMiddle.fromSeq cap l) := by
  simp only [DynMiddle.WF, DynMiddle.fromSeq, middleGap]
  omega

/-!
## Claims
-/

/-- C1: the spec claims that constructing a STATIC sequence from an
initializer list of length `capacity + 1` fails with `CapacityExceeded` and
constructs no elements.  The code's construction path
(`sequence(il)` → `fill(il)` → `fixed_sequence_storage::fill`) contains no
capacity check and no throw: at capacity 6 with a 7-element list it violates
the storage's `assert(range.size() <= capacity())` and (in a release build)
constructs all 7 elements past the end of the 6-slot buffer.  This theorem
evaluates the embedded construction path at that failing input. -/
theorem claim_C1_eval :
    FixedFront.size (StaticSeq.Front.fromIL ([1, 2, 3, 4, 5, 6, 7] : List Int)) = 7
    ∧ ¬ FixedFront.fillAssert 6 ([1, 2, 3, 4, 5, 6, 7] : List Int)
    ∧ (StaticSeq.Front.fromIL ([1, 2, 3, 4, 5, 6, 7] : List Int)).data
        = [1, 2, 3, 4, 5, 6, 7] := by
  refine ⟨rfl, ?_, rfl⟩
  simp [FixedFront.fillAssert]

/-- C2 (counterexample): the claim says every moved-from source has
`size() == 0`.  For a STATIC sequence the defaulted move constructor calls the
fixed storage's move constructor, which copies `m_size` from the source and
never resets it: moving from a STATIC/FRONT sequence holding `[1,2,3]` leaves
the source with size 3. -/
theorem claim_C2_counterexample :
    ¬ (FixedFront.size (StaticSeq.Front.moveCtor (StaticSeq.Front.fromIL ([1, 2, 3] : List Int))).2 = 0) := by
  decide

/-- C2 (amended): after a move-construction, a VARIABLE (dynamic) source has
size 0 and capacity 0 (the storage is swapped against a default-constructed
one), a FIXED source has size 0 (its `unique_ptr` is nulled; its reported
capacity stays the constexpr trait capacity), and a heap-backed BUFFERED
source has size 0 and capacity 0; but a STATIC source — and an inline
BUFFERED source — retains its size (its elements are left moved-from).
After a move-assignment of a VARIABLE sequence the source has size 0 and
inherits the destination's old capacity (`clear(); swap(rhs);`). -/
theorem claim_C2_amended :
    (∀ s : FixedFront.St Int,
        FixedFront.size (StaticSeq.Front.moveCtor s).2 = FixedFront.size s)
  ∧ (∀ d : DynFront.St Int,
        DynFront.size (DynFront.moveCtor d).2 = 0 ∧ (DynFront.moveCtor d).2.cap = 0)
  ∧ (∀ d : DynBack.St Int,
        DynBack.size (DynBack.moveCtor d).2 = 0 ∧ (DynBack.moveCtor d).2.cap = 0)
  ∧ (∀ d : DynMiddle.St Int,
        DynMiddle.size (DynMiddle.moveCtor d).2 = 0 ∧ (DynMiddle.moveCtor d).2.cap = 0)
  ∧ (∀ lhs rhs : DynFront.St Int,
        DynFront.size (DynFront.moveAssign lhs rhs).2 = 0
        ∧ (DynFront.moveAssign lhs rhs).2.cap = lhs.cap)
  ∧ (∀ s : FixedImpl.St Int, FixedImpl.size (FixedImpl.moveCtor s).2 = 0)
  ∧ (∀ d : DynFront.St Int,
        BufferedImpl.size (BufferedImpl.moveCtor (Sum.inr d : BufferedImpl.St Int)).2 = 0
        ∧ ∀ tcap, BufferedImpl.capacity tcap (BufferedImpl.moveCtor (Sum.inr d : BufferedImpl.St Int)).2 = 0)
  ∧ (∀ s : FixedFront.St Int,
        BufferedImpl.size (BufferedImpl.moveCtor (Sum.inl s : BufferedImpl.St Int)).2
          = FixedFront.size s) := by
  refine ⟨fun s => rfl, fun d => ⟨rfl, rfl⟩, fun d => ⟨rfl, rfl⟩, fun d => ⟨rfl, rfl⟩,
    fun lhs rhs => ⟨rfl, rfl⟩, fun s => rfl, fun d => ⟨rfl, fun tcap => rfl⟩, fun s => rfl⟩

/-- C4: the spec claims `shrink_to_fit()` on an empty FIXED sequence succeeds
and deallocates the heap block.  In the code, an empty FIXED sequence has
`size() = 0 < capacity() = TRAITS.capacity`, so `shrink_to_fit` calls
`reallocate(0)` — and the FIXED dispatcher's `reallocate` unconditionally
throws `std::bad_alloc`.  This theorem evaluates the embedded path at the
failing input (a default-constructed FIXED sequence with trait capacity 10). -/
theorem claim_C4_eval :
    FixedImpl.size (none : FixedImpl.St Int) = 0
    ∧ FixedImpl.shrinkToFit 10 (none : FixedImpl.St Int)
        = Except.error SeqError.CapacityExceeded := by
  refine ⟨rfl, ?_⟩
  simp [FixedImpl.shrinkToFit, FixedImpl.size]

/-- C8: copy-constructing a dynamic (heap-backed) storage allocates a fresh
buffer of capacity exactly `source.size()` (not `source.capacity()`), copies
the elements in order, and leaves the source unchanged; the same holds for
the heap-backed alternative of a BUFFERED sequence, whose variant copy
copy-constructs the active dynamic storage. -/
theorem claim_C8 :
    (∀ rhs : DynFront.St Int,
        (DynFront.copyCtor rhs).1.cap = DynFront.size rhs
      ∧ (DynFront.copyCtor rhs).1.data = rhs.data
      ∧ (DynFront.copyCtor rhs).2 = rhs)
  ∧ (∀ rhs : DynBack.St Int,
        (DynBack.copyCtor rhs).1.cap = DynBack.size rhs
      ∧ (DynBack.copyCtor rhs).1.data = rhs.data
      ∧ (DynBack.copyCtor rhs).2 = rhs)
  ∧ (∀ rhs : DynMiddle.St Int,
        (DynMiddle.copyCtor rhs).1.cap = DynMiddle.size rhs
      ∧ (DynMiddle.copyCtor rhs).1.fg = 0
      ∧ (DynMiddle.copyCtor rhs).1.data = rhs.data
      ∧ (DynMiddle.copyCtor rhs).2 = rhs)
  ∧ (∀ d : DynFront.St Int,
        BufferedImpl.copyCtor (Sum.inr d : BufferedImpl.St Int)
          = (Sum.inr ⟨DynFront.size d, d.data⟩, Sum.inr d)) := by
  refine ⟨fun rhs => ⟨rfl, rfl, rfl⟩, fun rhs => ⟨rfl, rfl, rfl⟩,
    fun rhs => ⟨rfl, rfl, rfl, rfl⟩, fun d => rfl⟩

/-- C9: the FIXED dispatcher's `clear()` (`m_storage->clear();
m_storage.reset();`) has no null guard, so on the absent-storage state
(default-constructed or already cleared) it dereferences a null pointer —
modelled by the `none` result — even though `size()` guards the same state.
`pop_front`, `pop_back` and `erase` fault the same way.  After a successful
`clear` the storage is absent again, so `clear` is not idempotent: the second
call faults. -/
theorem claim_C9 :
    FixedImpl.clear (none : FixedImpl.St Int) = none
  ∧ FixedImpl.size (none : FixedImpl.St Int) = 0
  ∧ FixedImpl.popFront (none : FixedImpl.St Int) = none
  ∧ FixedImpl.popBack (none : FixedImpl.St Int) = none
  ∧ (∀ i : Nat, FixedImpl.eraseAt (none : FixedImpl.St Int) i = none)
  ∧ (∀ s : FixedFront.St Int, FixedImpl.clear (some s) = some none) :=
  ⟨rfl, rfl, rfl, rfl, fun _ => rfl, fun _ => rfl⟩

/-- C10: on a heap-backed BUFFERED sequence, `clear()` executes
`m_storage.emplace<STC>()`: the dynamic alternative is destroyed (elements
and heap buffer) and a fresh inline storage becomes active.  Afterwards
`is_dynamic()` is false, `size()` is 0, and `capacity()` is the configured
inline buffer capacity — so `clear` can change the reported capacity. -/
theorem claim_C10 :
    ∀ (tcap : Nat) (d : DynFront.St Int),
      BufferedImpl.clear (Sum.inr d : BufferedImpl.St Int) = Sum.inl ⟨[]⟩
    ∧ BufferedImpl.isDynamic (BufferedImpl.clear (Sum.inr d : BufferedImpl.St Int)) = false
    ∧ BufferedImpl.capacity tcap (BufferedImpl.clear (Sum.inr d : BufferedImpl.St Int)) = tcap
    ∧ BufferedImpl.size (BufferedImpl.clear (Sum.inr d : BufferedImpl.St Int)) = 0 :=
  fun _ _ => ⟨rfl, rfl, rfl, rfl⟩

/-- C3 (counterexample): the claim says `resize(n, args)` with `n > size`
appends the new elements after the existing ones for every location,
including BACK.  For a BACK-location storage `add(count, args)` is
`while (count--) add_front(args...)`: resizing a STATIC/BACK sequence holding
`[1,2]` (capacity 4) to 4 with value 9 yields `[9,9,1,2]`, not `[1,2,9,9]` —
the original elements are not the first two elements of the result. -/
theorem claim_C3_counterexample :
    (StaticSeq.Back.resize 4 (StaticSeq.Back.fromIL ([1, 2] : List Int)) 4 9).toOption.map
        FixedBack.St.data = some [9, 9, 1, 2]
    ∧ ¬ ((StaticSeq.Back.resize 4 (StaticSeq.Back.fromIL ([1, 2] : List Int)) 4 9).toOption.map
        FixedBack.St.data = some ([1, 2] ++ List.replicate 2 9)) := by
  constructor <;> decide

/-- C3 (amended): for every storage mode, `resize(n, args)` with
`n > size()` reallocates if needed to a capacity of at least `n`
(`reallocate(max(n, traits.capacity))`; for STATIC it throws
`CapacityExceeded` when `n` exceeds the fixed capacity) and adds `n - size`
copies of the arguments; for FRONT and MIDDLE locations the copies are
appended after the existing elements, which remain the first `size()`
elements in order, while for the BACK location the copies are added before
the existing elements, which remain the last `size()` elements in order. -/
theorem claim_C3_amended :
    (∀ (cap : Nat) (s : FixedFront.St Int) (n : Nat) (v : Int),
      FixedFront.size s < n → n ≤ cap →
      (StaticSeq.Front.resize cap s n v).toOption.map FixedFront.St.data
        = some (s.data ++ List.replicate (n - FixedFront.size s) v))
  ∧ (∀ (cap : Nat) (s : FixedBack.St Int) (n : Nat) (v : Int),
      FixedBack.size s < n → n ≤ cap →
      (StaticSeq.Back.resize cap s n v).toOption.map FixedBack.St.data
        = some (List.replicate (n - FixedBack.size s) v ++ s.data))
  ∧ (∀ (cap : Nat) (s : FixedMiddle.St Int) (n : Nat) (v : Int),
      FixedMiddle.WF cap s → FixedMiddle.sizeC cap s < n → n ≤ cap →
      (StaticSeq.Middle.resize cap s n v).toOption.map FixedMiddle.St.data
        = some (s.data ++ List.replicate (n - FixedMiddle.sizeC cap s) v))
  ∧ (∀ (tcap : Nat) (s : DynFront.St Int) (n : Nat) (v : Int),
      DynFront.size s < n →
      (VarSeq.Front.resize tcap s n v).data
        = s.data ++ List.replicate (n - DynFront.size s) v
      ∧ n ≤ (VarSeq.Front.resize tcap s n v).cap)
  ∧ (∀ (tcap : Nat) (s : DynBack.St Int) (n : Nat) (v : Int),
      DynBack.size s < n →
      (VarSeq.Back.resize tcap s n v).data
        = List.replicate (n - DynBack.size s) v ++ s.data
      ∧ n ≤ (VarSeq.Back.resize tcap s n v).cap)
  ∧ (∀ (tcap : Nat) (s : DynMiddle.St Int) (n : Nat) (v : Int),
      DynMiddle.size s < n →
      (VarSeq.Middle.resize tcap s n v).data
        = s.data ++ List.replicate (n - DynMiddle.size s) v
      ∧ n ≤ (VarSeq.Middle.resize tcap s n v).cap) := by
  refine ⟨?_, ?_, ?_, ?_, ?_, ?_⟩
  · intro cap s n v h1 h2
    simp only [StaticSeq.Front.resize]
    rw [if_neg (by omega), if_pos (by omega), if_neg (by omega)]
    simp [Except.toOption, fixedFront_add_data]
  · intro cap s n v h1 h2
    simp only [StaticSeq.Back.resize]
    rw [if_neg (by omega), if_pos (by omega), if_neg (by omega)]
    simp [Except.toOption, fixedBack_add_data]
  · intro cap s n v hwf h1 h2
    simp only [StaticSeq.Middle.resize]
    rw [if_neg (by omega), if_pos (by omega), if_neg (by omega)]
    simp [Except.toOption, fixedMiddle_add_data]
  · intro tcap s n v h1
    simp only [VarSeq.Front.resize]
    rw [if_neg (by omega), if_pos (by omega)]
    by_cases hc : n > s.cap <;>
      simp [hc, dynFront_add_data, dynFront_add_cap, DynFront.reallocate] <;> omega
  · intro tcap s n v h1
    simp only [VarSeq.Back.resize]
    rw [if_neg (by omega), if_pos (by omega)]
    by_cases hc : n > s.cap <;>
      simp [hc, dynBack_add_data, dynBack_add_cap, DynBack.reallocate] <;> omega
  · intro tcap s n v h1
    simp only [VarSeq.Middle.resize]
    rw [if_neg (by omega), if_pos (by omega)]
    by_cases hc : n > s.cap <;>
      simp [hc, dynMiddle_add_data, dynMiddle_add_cap, DynMiddle.reallocate] <;> omega

/-- C3 (witness): the amended resize behavior at concrete inputs — a
STATIC/FRONT sequence `[1,2]` of capacity 6 resized to 4 with value 7, and a
VARIABLE/BACK sequence `[1,2]` of capacity 4 resized to 5 with value 9. -/
theorem claim_C3_amended_witness :
    (StaticSeq.Front.resize 6 (⟨[1, 2]⟩ : FixedFront.St Int) 4 7).toOption.map
        FixedFront.St.data
      = some ([1, 2] ++ List.replicate (4 - FixedFront.size (⟨[1, 2]⟩ : FixedFront.St Int)) 7)
    ∧ ((VarSeq.Back.resize 1 (⟨4, [1, 2]⟩ : DynBack.St Int) 5 9).data
        = List.replicate (5 - DynBack.size (⟨4, [1, 2]⟩ : DynBack.St Int)) 9 ++ [1, 2]
      ∧ 5 ≤ (VarSeq.Back.resize 1 (⟨4, [1, 2]⟩ : DynBack.St Int) 5 9).cap) :=
  ⟨claim_C3_amended.1 6 ⟨[1, 2]⟩ 4 7 (by decide) (by decide),
   claim_C3_amended.2.2.2.2.1 1 ⟨4, [1, 2]⟩ 5 9 (by decide)⟩

/-- C5: for a BUFFERED sequence with inline buffer capacity `C`:
`reserve(n)` with `n ≤ C` while inline does nothing (in particular
`reserve(C)`), `reserve(C+1)` while inline moves the elements to a heap
buffer of capacity exactly `C+1`, and a reallocation to any capacity `≤ C`
while heap-backed (for example `shrink_to_fit` with `size ≤ C`) moves the
elements back into the inline buffer and drops the heap buffer. -/
theorem claim_C5 :
    (∀ (tcap n : Nat) (s : FixedFront.St Int), n ≤ tcap →
      BufferedImpl.reserve tcap (Sum.inl s : BufferedImpl.St Int) n = Sum.inl s)
  ∧ (∀ (tcap : Nat) (s : FixedFront.St Int),
      BufferedImpl.reserve tcap (Sum.inl s : BufferedImpl.St Int) (tcap + 1)
        = Sum.inr (⟨tcap + 1, s.data⟩ : DynFront.St Int))
  ∧ (∀ (tcap n : Nat) (d : DynFront.St Int), n ≤ tcap →
      BufferedImpl.reallocate tcap n (Sum.inr d : BufferedImpl.St Int)
        = Sum.inl (⟨d.data⟩ : FixedFront.St Int))
  ∧ (∀ (tcap : Nat) (d : DynFront.St Int),
      DynFront.size d < d.cap → DynFront.size d ≤ tcap →
      BufferedImpl.shrinkToFit tcap (Sum.inr d : BufferedImpl.St Int)
        = Sum.inl (⟨d.data⟩ : FixedFront.St Int)) := by
  refine ⟨?_, ?_, ?_, ?_⟩
  · intro tcap n s h
    simp only [BufferedImpl.reserve, BufferedImpl.capacity]
    rw [if_neg (by omega)]
  · intro tcap s
    simp only [BufferedImpl.reserve, BufferedImpl.capacity]
    rw [if_pos (by omega)]
    simp only [BufferedImpl.reallocate]
    rw [if_pos (by omega)]
    rfl
  · intro tcap n d h
    simp only [BufferedImpl.reallocate]
    rw [if_neg (by omega)]
    rfl
  · intro tcap d h1 h2
    simp only [BufferedImpl.shrinkToFit, BufferedImpl.capacity, BufferedImpl.size]
    rw [if_pos (by omega)]
    simp only [BufferedImpl.reallocate]
    rw [if_neg (by omega)]
    rfl

/-- C5 (witness): the inline/heap transitions at buffer capacity 6 with
contents `[1,2,3]` — `reserve(6)` inline is a no-op, `reserve(7)` moves to a
heap buffer of capacity 7, `reallocate(3)` and `shrink_to_fit` on a
heap-backed state of capacity 10 move back inline. -/
theorem claim_C5_witness :
    BufferedImpl.reserve 6 (Sum.inl (⟨[1, 2, 3]⟩ : FixedFront.St Int) : BufferedImpl.St Int) 6
      = Sum.inl ⟨[1, 2, 3]⟩
  ∧ BufferedImpl.reserve 6 (Sum.inl (⟨[1, 2, 3]⟩ : FixedFront.St Int) : BufferedImpl.St Int) (6 + 1)
      = Sum.inr ⟨6 + 1, [1, 2, 3]⟩
  ∧ BufferedImpl.reallocate 6 3 (Sum.inr (⟨10, [1, 2, 3]⟩ : DynFront.St Int) : BufferedImpl.St Int)
      = Sum.inl ⟨[1, 2, 3]⟩
  ∧ BufferedImpl.shrinkToFit 6 (Sum.inr (⟨10, [1, 2, 3]⟩ : DynFront.St Int) : BufferedImpl.St Int)
      = Sum.inl ⟨[1, 2, 3]⟩ :=
  ⟨claim_C5.1 6 6 ⟨[1, 2, 3]⟩ (by decide),
   claim_C5.2.1 6 ⟨[1, 2, 3]⟩,
   claim_C5.2.2.1 6 3 ⟨10, [1, 2, 3]⟩ (by decide),
   claim_C5.2.2.2 6 ⟨10, [1, 2, 3]⟩ (by decide) (by decide)⟩

/-- C6: a STATIC/MIDDLE sequence of capacity 10 filled with 4 elements has
`front_gap = 3` and `back_gap = 3`; three `emplace_back` operations leave
`front_gap = 3`, `back_gap = 0`; the fourth `emplace_back` finds
`back_gap == 0`, recenters (reverse: the extra slot of the odd free space
goes to the back), and afterwards `front_gap = 1`, `back_gap = 1`,
`size() = 8`, with the element order preserved. -/
theorem claim_C6 :
    FixedMiddle.fill 10 ([4, 5, 6, 7] : List Int) = ⟨3, 3, [4, 5, 6, 7]⟩
  ∧ StaticSeq.Middle.emplaceBack 10 (⟨3, 3, [4, 5, 6, 7]⟩ : FixedMiddle.St Int) 8
      = Except.ok ⟨3, 2, [4, 5, 6, 7, 8]⟩
  ∧ StaticSeq.Middle.emplaceBack 10 (⟨3, 2, [4, 5, 6, 7, 8]⟩ : FixedMiddle.St Int) 9
      = Except.ok ⟨3, 1, [4, 5, 6, 7, 8, 9]⟩
  ∧ StaticSeq.Middle.emplaceBack 10 (⟨3, 1, [4, 5, 6, 7, 8, 9]⟩ : FixedMiddle.St Int) 10
      = Except.ok ⟨3, 0, [4, 5, 6, 7, 8, 9, 10]⟩
  ∧ StaticSeq.Middle.emplaceBack 10 (⟨3, 0, [4, 5, 6, 7, 8, 9, 10]⟩ : FixedMiddle.St Int) 11
      = Except.ok ⟨1, 1, [4, 5, 6, 7, 8, 9, 10, 11]⟩
  ∧ FixedMiddle.sizeC 10 (⟨1, 1, [4, 5, 6, 7, 8, 9, 10, 11]⟩ : FixedMiddle.St Int) = 8 := by
  exact ⟨by decide, rfl, rfl, rfl, rfl, by decide⟩

/-- C7: for MIDDLE-location storages the tiling invariant
`front_gap + size + back_gap == capacity` (equivalently
`capacity_begin ≤ data_begin ≤ data_end ≤ capacity_end`, the well-formedness
predicate `WF`) holds after every operation: it implies the stated gap
equation for both the fixed storage (whose `size()` is computed as
`capacity - (front_gap + back_gap)`) and the dynamic storage (whose gaps are
derived from its pointers), and it is preserved by default construction,
`fill`, `recenter`, `add_back`, `add_front`, `add_at`, `add`, `clear`,
`erase` (range and element), `pop_front`, `pop_back`, the constructors, and
(dynamic) `reallocate`, under each operation's preconditions. -/
theorem claim_C7 :
    (∀ (cap : Nat) (s : FixedMiddle.St Int), FixedMiddle.WF cap s →
      s.frontGap + FixedMiddle.sizeC cap s + s.backGap = cap
      ∧ FixedMiddle.sizeC cap s = s.data.length)
  ∧ (∀ s : DynMiddle.St Int, DynMiddle.WF s →
      DynMiddle.frontGap s + DynMiddle.size s + DynMiddle.backGap s = s.cap)
  ∧ (∀ cap : Nat, FixedMiddle.WF cap (FixedMiddle.init cap : FixedMiddle.St Int))
  ∧ (∀ (cap : Nat) (il : List Int), il.length ≤ cap →
      FixedMiddle.WF cap (FixedMiddle.fill cap il))
  ∧ (∀ (cap : Nat) (s : FixedMiddle.St Int), FixedMiddle.WF cap s →
      FixedMiddle.WF cap (FixedMiddle.recenter cap s))
  ∧ (∀ (cap : Nat) (s : FixedMiddle.St Int) (v : Int), FixedMiddle.WF cap s →
      s.data.length < cap → FixedMiddle.WF cap (FixedMiddle.addBack cap s v))
  ∧ (∀ (cap : Nat) (s : FixedMiddle.St Int) (v : Int), FixedMiddle.WF cap s →
      s.data.length < cap → FixedMiddle.WF cap (FixedMiddle.addFront cap s v))
  ∧ (∀ (cap : Nat) (s : FixedMiddle.St Int) (i : Nat) (v : Int), FixedMiddle.WF cap s →
      i ≤ s.data.length → s.data.length < cap →
      FixedMiddle.WF cap (FixedMiddle.addAt cap s i v))
  ∧ (∀ (cap : Nat) (s : FixedMiddle.St Int) (c : Nat) (v : Int), FixedMiddle.WF cap s →
      s.data.length + c ≤ cap → FixedMiddle.WF cap (FixedMiddle.add cap s c v))
  ∧ (∀ (cap : Nat) (s : FixedMiddle.St Int), FixedMiddle.WF cap (FixedMiddle.clear cap s))
  ∧ (∀ (cap : Nat) (s : FixedMiddle.St Int) (i j : Nat), FixedMiddle.WF cap s →
      i ≤ j → j ≤ s.data.length → FixedMiddle.WF cap (FixedMiddle.eraseRange s i j))
  ∧ (∀ (cap : Nat) (s : FixedMiddle.St Int) (i : Nat), FixedMiddle.WF cap s →
      i < s.data.length → FixedMiddle.WF cap (FixedMiddle.eraseAt s i))
  ∧ (∀ (cap : Nat) (s : FixedMiddle.St Int), FixedMiddle.WF cap s →
      1 ≤ s.data.length → FixedMiddle.WF cap (FixedMiddle.popFront s))
  ∧ (∀ (cap : Nat) (s : FixedMiddle.St Int), FixedMiddle.WF cap s →
      1 ≤ s.data.length → FixedMiddle.WF cap (FixedMiddle.popBack s))
  ∧ (∀ (cap : Nat) (l : List Int), l.length ≤ cap →
      FixedMiddle.WF cap (FixedMiddle.fromSeq cap l))
  ∧ (∀ (cap : Nat) (s : FixedMiddle.St Int), FixedMiddle.WF cap s →
      FixedMiddle.WF cap (FixedMiddle.moveCtor s).1
      ∧ FixedMiddle.WF cap (FixedMiddle.moveCtor s).2
      ∧ FixedMiddle.WF cap (FixedMiddle.copyCtor s).1)
  ∧ DynMiddle.WF (DynMiddle.init : DynMiddle.St Int)
  ∧ (∀ il : List Int, DynMiddle.WF (DynMiddle.fill il))
  ∧ (∀ s : DynMiddle.St Int, DynMiddle.WF s → DynMiddle.WF (DynMiddle.recenter s))
  ∧ (∀ (s : DynMiddle.St Int) (newCap : Nat), s.data.length ≤ newCap →
      DynMiddle.WF (DynMiddle.reallocate s newCap))
  ∧ (∀ (s : DynMiddle.St Int) (v : Int), DynMiddle.WF s →
      s.data.length < s.cap → DynMiddle.WF (DynMiddle.addBack s v))
  ∧ (∀ (s : DynMiddle.St Int) (v : Int), DynMiddle.WF s →
      s.data.length < s.cap → DynMiddle.WF (DynMiddle.addFront s v))
  ∧ (∀ (s : DynMiddle.St Int) (i : Nat) (v : Int), DynMiddle.WF s →
      i ≤ s.data.length → s.data.length < s.cap → DynMiddle.WF (DynMiddle.addAt s i v))
  ∧ (∀ (s : DynMiddle.St Int) (c : Nat) (v : Int), DynMiddle.WF s →
      s.data.length + c ≤ s.cap → DynMiddle.WF (DynMiddle.add s c v))
  ∧ (∀ s : DynMiddle.St Int, DynMiddle.WF (DynMiddle.clear s))
  ∧ (∀ (s : DynMiddle.St Int) (i j : Nat), DynMiddle.WF s →
      i ≤ j → j ≤ s.data.length → DynMiddle.WF (DynMiddle.eraseRange s i j))
  ∧ (∀ (s : DynMiddle.St Int) (i : Nat), DynMiddle.WF s →
      i < s.data.length → DynMiddle.WF (DynMiddle.eraseAt s i))
  ∧ (∀ s : DynMiddle.St Int, DynMiddle.WF s →
      1 ≤ s.data.length → DynMiddle.WF (DynMiddle.popFront s))
  ∧ (∀ s : DynMiddle.St Int, DynMiddle.WF s →
      1 ≤ s.data.length → DynMiddle.WF (DynMiddle.popBack s))
  ∧ (∀ (cap : Nat) (l : List Int), l.length ≤ cap →
      DynMiddle.WF (DynMiddle.fromSeq cap l))
  ∧ (∀ rhs : DynMiddle.St Int, DynMiddle.WF (DynMiddle.copyCtor rhs).1)
  ∧ (∀ rhs : DynMiddle.St Int, DynMiddle.WF rhs →
      DynMiddle.WF (DynMiddle.moveCtor rhs).1 ∧ DynMiddle.WF (DynMiddle.moveCtor rhs).2) := by
  refine ⟨?_, ?_,
    fixedMiddle_wf_init, fun cap il h => fixedMiddle_wf_fill cap il h,
    fun cap s h => fixedMiddle_wf_recenter cap s h,
    fun cap s v h hlt => fixedMiddle_wf_addBack cap s v h hlt,
    fun cap s v h hlt => fixedMiddle_wf_addFront cap s v h hlt,
    fun cap s i v h hi hlt => fixedMiddle_wf_addAt cap s i v h hi hlt,
    fun cap s c v h hc => fixedMiddle_wf_add cap s c v h hc,
    fun cap s => fixedMiddle_wf_clear cap s,
    fun cap s i j h hij hj => fixedMiddle_wf_eraseRange cap s i j h hij hj,
    fun cap s i h hi => fixedMiddle_wf_eraseAt cap s i h hi,
    fun cap s h hn => fixedMiddle_wf_popFront cap s h hn,
    fun cap s h hn => fixedMiddle_wf_popBack cap s h hn,
    fun cap l h => fixedMiddle_wf_fromSeq cap l h,
    fun cap s h => ⟨h, h, h⟩,
    dynMiddle_wf_init, fun il => dynMiddle_wf_fill il,
    fun s h => dynMiddle_wf_recenter s h,
    fun s newCap h => dynMiddle_wf_reallocate s newCap h,
    fun s v h hlt => dynMiddle_wf_addBack s v h hlt,
    fun s v h hlt => dynMiddle_wf_addFront s v h hlt,
    fun s i v h hi hlt => dynMiddle_wf_addAt s i v h hi hlt,
    fun s c v h hc => dynMiddle_wf_add s c v h hc,
    fun s => dynMiddle_wf_clear s,
    fun s i j h hij hj => dynMiddle_wf_eraseRange s i j h hij hj,
    fun s i h hi => dynMiddle_wf_eraseAt s i h hi,
    fun s h hn => dynMiddle_wf_popFront s h hn,
    fun s h hn => dynMiddle_wf_popBack s h hn,
    fun cap l h => dynMiddle_wf_fromSeq cap l h,
    fun rhs => dynMiddle_wf_copyCtor rhs,
    fun rhs h => dynMiddle_wf_moveCtor rhs h⟩
  · intro cap s h
    unfold FixedMiddle.WF at h
    unfold FixedMiddle.sizeC
    omega
  · intro s h
    unfold DynMiddle.WF at h
    unfold DynMiddle.frontGap DynMiddle.size DynMiddle.backGap
    omega

/-- C7 (witness): the invariant at concrete states — the gap equation on a
well-formed fixed MIDDLE state, preservation under `fill`, `add_back` on a
full-back-gap state (forcing a recenter), `erase`, and the dynamic `add_front`
on a zero-front-gap state. -/
theorem claim_C7_witness :
    ((⟨3, 3, [4, 5, 6, 7]⟩ : FixedMiddle.St Int).frontGap
        + FixedMiddle.sizeC 10 (⟨3, 3, [4, 5, 6, 7]⟩ : FixedMiddle.St Int)
        + (⟨3, 3, [4, 5, 6, 7]⟩ : FixedMiddle.St Int).backGap = 10)
  ∧ FixedMiddle.WF 10 (FixedMiddle.fill 10 ([1, 2, 3, 4] : List Int))
  ∧ FixedMiddle.WF 10
      (FixedMiddle.addBack 10 (⟨3, 0, [4, 5, 6, 7, 8, 9, 10]⟩ : FixedMiddle.St Int) 11)
  ∧ FixedMiddle.WF 10 (FixedMiddle.eraseRange (⟨3, 3, [4, 5, 6, 7]⟩ : FixedMiddle.St Int) 1 3)
  ∧ DynMiddle.WF (DynMiddle.addFront (⟨10, 0, [1, 2, 3, 4]⟩ : DynMiddle.St Int) 0) :=
  ⟨(claim_C7.1 10 ⟨3, 3, [4, 5, 6, 7]⟩ (by unfold FixedMiddle.WF; decide)).1,
   claim_C7.2.2.2.1 10 [1, 2, 3, 4] (by decide),
   claim_C7.2.2.2.2.2.1 10 ⟨3, 0, [4, 5, 6, 7, 8, 9, 10]⟩ 11
     (by unfold FixedMiddle.WF; decide) (by decide),
   claim_C7.2.2.2.2.2.2.2.2.2.2.1 10 ⟨3, 3, [4, 5, 6, 7]⟩ 1 3
     (by unfold FixedMiddle.WF; decide) (by decide) (by decide),
   claim_C7.2.2.2.2.2.2.2.2.2.2.2.2.2.2.2.2.2.2.2.2.2.1 ⟨10, 0, [1, 2, 3, 4]⟩ 0
     (by unfold DynMiddle.WF; decide) (by decide)⟩

end SeqModel
